import Mathlib

/-!
Verification development for the HyperSpy "Blockfile" plugin
(`hyperspy/io_plugins/blockfile.py`): a binary codec for the ASTAR
blockfile format.  The Python module is shallowly embedded here:

* machine integers are `Nat` with explicit `% 2^w` where numpy would wrap;
* Python/numpy `float64` values are modelled as exact rationals `ℚ`; where
  a float is written to disk it goes through an executable IEEE-754
  binary64 encoder (`f8_encode_nat`), so byte-level layout is preserved;
* files are `List ℕ` of byte values; fallible code returns `Except`/pairs
  `(bytes written so far, error)`.
-/

set_option maxRecDepth 40000
set_option linter.unusedVariables false

attribute [local semireducible] Rat.mul Rat.inv Rat.add Rat.sub

/-- numpy byte-order characters: `<` (little), `>` (big), and the implicit
native order used by a dtype spelled without a prefix (e.g. plain `'f8'`).
On the little-endian hosts this code runs on, native order lays bytes out
little-endian, which `orderBytes` reflects. -/
inductive ByteOrder where
  | little
  | big
  | native
deriving DecidableEq, Repr

/-- Apply a byte order to a little-endian byte list. -/
def orderBytes (o : ByteOrder) (bs : List ℕ) : List ℕ :=
  match o with
  | ByteOrder.big => bs.reverse
  | _ => bs

/-- `w` bytes of `v`, least-significant first (so the value `v % 256^w`). -/
def leBytes : ℕ → ℕ → List ℕ
  | 0, _ => []
  | w + 1, v => v % 256 :: leBytes w (v / 256)

/-- Value of a little-endian byte list. -/
def fromLE : List ℕ → ℕ
  | [] => 0
  | b :: bs => b + 256 * fromLE bs

/-- Serialize an unsigned `w`-byte integer in byte order `o`. -/
def putUint (o : ByteOrder) (w v : ℕ) : List ℕ :=
  orderBytes o (leBytes w v)

/-- Read an unsigned `w`-byte integer in byte order `o` from the front of `bs`. -/
def getU (o : ByteOrder) (w : ℕ) (bs : List ℕ) : ℕ :=
  fromLE (orderBytes o (bs.take w))

@[simp] theorem leBytes_length (w v : ℕ) : (leBytes w v).length = w := by
  induction w generalizing v with
  | zero => rfl
  | succ n ih => simp [leBytes, ih]

@[simp] theorem orderBytes_length (o : ByteOrder) (bs : List ℕ) :
    (orderBytes o bs).length = bs.length := by
  cases o <;> simp [orderBytes]

@[simp] theorem putUint_length (o : ByteOrder) (w v : ℕ) :
    (putUint o w v).length = w := by
  simp [putUint]

theorem fromLE_leBytes (w v : ℕ) : fromLE (leBytes w v) = v % 256 ^ w := by
  induction w generalizing v with
  | zero => simp [leBytes, fromLE, Nat.mod_one]
  | succ n ih =>
      rw [leBytes, fromLE, ih, pow_succ, mul_comm (256 ^ n) 256, Nat.mod_mul]

theorem orderBytes_orderBytes (o : ByteOrder) (bs : List ℕ) :
    orderBytes o (orderBytes o bs) = bs := by
  cases o <;> simp [orderBytes]

theorem getU_putUint (o : ByteOrder) (w v : ℕ) (rest : List ℕ) :
    getU o w (putUint o w v ++ rest) = v % 256 ^ w := by
  rw [getU, putUint, List.take_left' (by simp), orderBytes_orderBytes, fromLE_leBytes]

/-! ### IEEE-754 binary64

`numpy` stores every `f8` field as an IEEE-754 double.  The encoder below
maps a rational to the 64-bit pattern numpy would store (round to nearest,
ties to even), and the decoder maps a bit pattern back to the exact
rational it denotes (infinities/NaNs, which have no rational value, decode
to 0; no claim exercises them). -/

/-- Round to nearest integer, ties to even. -/
def rhe (q : ℚ) : ℤ :=
  let f := ⌊q⌋
  let r := q - f
  if r < 1 / 2 then f
  else if 1 / 2 < r then f + 1
  else if f % 2 = 0 then f else f + 1

/-- Fuel-bounded structural `⌊log₂ n⌋` (0 for `n = 0`). -/
def log2f : ℕ → ℕ → ℕ
  | 0, _ => 0
  | fuel + 1, n => if n < 2 then 0 else log2f fuel (n / 2) + 1

/-- `⌊log₂ n⌋` for `n ≥ 1`, computed structurally. -/
def natLog2 (n : ℕ) : ℕ := log2f n n

/-- `⌊log₂ a⌋` for a positive rational, by candidate search around the
integer logs of numerator and denominator. -/
def ilog2 (a : ℚ) : ℤ :=
  let g : ℤ := (natLog2 a.num.natAbs : ℤ) - (natLog2 a.den : ℤ)
  if (2 : ℚ) ^ (g + 1) ≤ a then g + 1
  else if a < (2 : ℚ) ^ g then g - 1
  else g

/-- IEEE-754 binary64 bit pattern of a rational (round to nearest even). -/
def f8_encode_nat (q : ℚ) : ℕ :=
  if q = 0 then 0
  else
    let s : ℕ := if q < 0 then 1 else 0
    let a := |q|
    let e0 : ℤ := ilog2 a
    let m0 : ℤ := rhe (a * (2 : ℚ) ^ (52 - e0))
    let e : ℤ := if m0 = 2 ^ 53 then e0 + 1 else e0
    let m : ℤ := if m0 = 2 ^ 53 then 2 ^ 52 else m0
    if e > 1023 then s * 2 ^ 63 + 2047 * 2 ^ 52
    else if e < -1022 then
      s * 2 ^ 63 + (rhe (a * (2 : ℚ) ^ (1074 : ℤ))).toNat
    else s * 2 ^ 63 + (e + 1023).toNat * 2 ^ 52 + (m - 2 ^ 52).toNat

/-- Exact rational value of an IEEE-754 binary64 bit pattern. -/
def f8_decode (bits : ℕ) : ℚ :=
  let s : ℚ := if bits / 2 ^ 63 % 2 = 1 then -1 else 1
  let ex : ℕ := bits / 2 ^ 52 % 2 ^ 11
  let m : ℕ := bits % 2 ^ 52
  if ex = 0 then s * m * (2 : ℚ) ^ (-(1074 : ℤ))
  else if ex = 2047 then 0
  else s * ((2 ^ 52 + m : ℕ) : ℚ) * (2 : ℚ) ^ ((ex : ℤ) - 1075)

/-- The 8 bytes numpy writes for an `f8` field holding `q`, in order `o`. -/
def f8chunk (o : ByteOrder) (q : ℚ) : List ℕ :=
  orderBytes o (leBytes 8 (f8_encode_nat q))

/-- Read an `f8` field in order `o` from the front of `bs`. -/
def f8dec (o : ByteOrder) (bs : List ℕ) : ℚ :=
  f8_decode (getU o 8 bs)

@[simp] theorem f8chunk_length (o : ByteOrder) (q : ℚ) : (f8chunk o q).length = 8 := by
  simp [f8chunk]

/-! ### Header layout (`get_header_dtype_list`, blockfile.py lines 69-95) -/

/-- A field descriptor of the packed header record: raw bytes of a given
width, or an unsigned 16/32-bit integer or 64-bit float in a given byte
order. -/
inductive FieldKind where
  | bytesN (n : ℕ)
  | u2 (o : ByteOrder)
  | u4 (o : ByteOrder)
  | f8 (o : ByteOrder)
deriving DecidableEq, Repr

/-- Render `i` with at least two digits, as Python `'%02d' % i` does. -/
def pad2 (i : ℕ) : String :=
  if i < 10 then "0" ++ Nat.repr i else Nat.repr i

/-- The dtype list of the header record.  Every prefixed entry carries the
requested byte order `e`; the `Centering_N*` and `Distortion_N*` entries
are spelled plain `'f8'` in the source and therefore carry native order. -/
def get_header_dtype_list (e : ByteOrder) : List (String × FieldKind) :=
  [ ("ID", FieldKind.bytesN 6),
    ("MAGIC", FieldKind.u2 e),
    ("Data_offset_1", FieldKind.u4 e),
    ("Data_offset_2", FieldKind.u4 e),
    ("UNKNOWN1", FieldKind.u4 e),
    ("DP_SZ", FieldKind.u2 e),
    ("DP_rotation", FieldKind.u2 e),
    ("NX", FieldKind.u2 e),
    ("NY", FieldKind.u2 e),
    ("Scan_rotation", FieldKind.u2 e),
    ("SX", FieldKind.f8 e),
    ("SY", FieldKind.f8 e),
    ("Beam_energy", FieldKind.u4 e),
    ("SDP", FieldKind.u2 e),
    ("Camera_length", FieldKind.u4 e),
    ("Aquisiton_time", FieldKind.f8 e) ]
  ++ (List.range 8).map (fun i => ("Centering_N" ++ Nat.repr i, FieldKind.f8 ByteOrder.native))
  ++ (List.range 14).map (fun i => ("Distortion_N" ++ pad2 i, FieldKind.f8 ByteOrder.native))

/-- In-memory header record: one value per dtype field.  Integer fields are
naturals (reduced mod their width when stored), float fields are exact
rationals, `ID` is 6 raw bytes, and the vendor calibration blocks are the
8- and 14-entry float lists. -/
structure Header where
  ID : List ℕ
  MAGIC : ℕ
  Data_offset_1 : ℕ
  Data_offset_2 : ℕ
  UNKNOWN1 : ℕ
  DP_SZ : ℕ
  DP_rotation : ℕ
  NX : ℕ
  NY : ℕ
  Scan_rotation : ℕ
  SX : ℚ
  SY : ℚ
  Beam_energy : ℕ
  SDP : ℕ
  Camera_length : ℕ
  Aquisiton_time : ℚ
  Centering : List ℚ
  Distortion : List ℚ
deriving DecidableEq, Repr

/-- The bytes of `"IMGBLO"`. -/
def imgblo : List ℕ := [73, 77, 71, 66, 76, 79]

/-- `get_default_header` (lines 98-108): a zeroed record with the literal
defaults set.  `Aquisiton_time` is the current time as a serial date; the
caller supplies it here as `now` since the embedding is pure. -/
def get_default_header (now : ℚ) : Header where
  ID := imgblo
  MAGIC := 0x0102
  Data_offset_1 := 0x1000
  Data_offset_2 := 0
  UNKNOWN1 := 131141
  DP_SZ := 0
  DP_rotation := 0
  NX := 0
  NY := 0
  Scan_rotation := 0
  SX := 0
  SY := 0
  Beam_energy := 0
  SDP := 0
  Camera_length := 0
  Aquisiton_time := now
  Centering := List.replicate 8 0
  Distortion := List.replicate 14 0

/-- numpy S6 storage: pad with NUL bytes / truncate to exactly 6 bytes. -/
def fit6 (bs : List ℕ) : List ℕ := (bs ++ List.replicate 6 0).take 6

/-- Pad with zeros / truncate a float block to exactly `n` entries. -/
def fitQ (n : ℕ) (qs : List ℚ) : List ℚ := (qs ++ List.replicate n 0).take n

/-- Serialize the header record in dtype order (what `header.tofile` emits).
The byte order of each chunk follows `get_header_dtype_list e`: every
prefixed field uses `e`, the Centering/Distortion blocks use native order. -/
def encodeHeader (e : ByteOrder) (h : Header) : List ℕ :=
  fit6 h.ID
  ++ putUint e 2 h.MAGIC
  ++ putUint e 4 h.Data_offset_1
  ++ putUint e 4 h.Data_offset_2
  ++ putUint e 4 h.UNKNOWN1
  ++ putUint e 2 h.DP_SZ
  ++ putUint e 2 h.DP_rotation
  ++ putUint e 2 h.NX
  ++ putUint e 2 h.NY
  ++ putUint e 2 h.Scan_rotation
  ++ f8chunk e h.SX
  ++ f8chunk e h.SY
  ++ putUint e 4 h.Beam_energy
  ++ putUint e 2 h.SDP
  ++ putUint e 4 h.Camera_length
  ++ f8chunk e h.Aquisiton_time
  ++ ((fitQ 8 h.Centering).map (f8chunk ByteOrder.native)).flatten
  ++ ((fitQ 14 h.Distortion).map (f8chunk ByteOrder.native)).flatten

/-- Decode the fixed-size 240-byte header record from the front of `bs`
(`np.fromfile(f, dtype=get_header_dtype_list(endianess), count=1)`).
Field offsets follow the packed dtype layout. -/
def decodeHeader (e : ByteOrder) (bs : List ℕ) : Header where
  ID := (bs.take 6)
  MAGIC := getU e 2 (bs.drop 6)
  Data_offset_1 := getU e 4 (bs.drop 8)
  Data_offset_2 := getU e 4 (bs.drop 12)
  UNKNOWN1 := getU e 4 (bs.drop 16)
  DP_SZ := getU e 2 (bs.drop 20)
  DP_rotation := getU e 2 (bs.drop 22)
  NX := getU e 2 (bs.drop 24)
  NY := getU e 2 (bs.drop 26)
  Scan_rotation := getU e 2 (bs.drop 28)
  SX := f8dec e (bs.drop 30)
  SY := f8dec e (bs.drop 38)
  Beam_energy := getU e 4 (bs.drop 46)
  SDP := getU e 2 (bs.drop 50)
  Camera_length := getU e 4 (bs.drop 52)
  Aquisiton_time := f8dec e (bs.drop 56)
  Centering := (List.range 8).map (fun i => f8dec ByteOrder.native (bs.drop (64 + 8 * i)))
  Distortion := (List.range 14).map (fun i => f8dec ByteOrder.native (bs.drop (128 + 8 * i)))

@[simp] theorem fit6_length (bs : List ℕ) : (fit6 bs).length = 6 := by
  simp [fit6]

@[simp] theorem fitQ_length (n : ℕ) (qs : List ℚ) : (fitQ n qs).length = n := by
  simp [fitQ]

@[simp] theorem encodeHeader_length (e : ByteOrder) (h : Header) :
    (encodeHeader e h).length = 240 := by
  have hc : ∀ (qs : List ℚ) (n : ℕ),
      ((fitQ n qs).map (f8chunk ByteOrder.native)).flatten.length = 8 * n := by
    intro qs n
    rw [List.length_flatten, List.map_map]
    have hfn : (List.length ∘ f8chunk ByteOrder.native) = fun _ : ℚ => 8 := by
      funext q; simp
    rw [hfn, List.map_const', List.sum_replicate, fitQ_length, smul_eq_mul, mul_comm]
  simp [encodeHeader, hc]

/-! ### Errors and the signal model -/

/-- Python exceptions the module can raise, by kind and message. -/
inductive Err where
  | valueErr (msg : String)
  | typeErr (msg : String)
  | zeroDivErr
deriving DecidableEq, Repr

/-- The slice of the HyperSpy signal object the codec touches: the 4-D data
cube indexed `[scan row][scan column][pattern row][pattern column]`, the
scales of the two navigation axes and of the first signal axis, and the
optional stored raw header + note (`original_metadata['blockfile_header']`).
Navigation axis 0 is the scan x (column) axis, navigation axis 1 the scan
y (row) axis. -/
structure Signal where
  data : List (List (List (List ℕ)))
  nav0_scale : ℚ
  nav1_scale : ℚ
  sig_scale : ℚ
  blockfile_header : Option (Header × List ℕ)

/-- `axes_manager.navigation_shape[0]`: scan columns `NX`. -/
def sigNX (s : Signal) : ℕ := (s.data.headD []).length

/-- `axes_manager.navigation_shape[1]`: scan rows `NY`. -/
def sigNY (s : Signal) : ℕ := s.data.length

/-- `axes_manager.signal_shape[0]`: pattern width `W` (x comes first). -/
def sigW (s : Signal) : ℕ := (((s.data.headD []).headD []).headD []).length

/-- `axes_manager.signal_shape[1]`: pattern height `H`. -/
def sigH (s : Signal) : ℕ := ((s.data.headD []).headD []).length

/-- Python `int(float)`: truncation toward zero. -/
def ratTrunc (q : ℚ) : ℤ :=
  if q < 0 then -⌊-q⌋ else ⌊q⌋

/-- numpy cast of a float to an unsigned `w`-bit integer: truncate toward
zero, wrap modulo `2^w`. -/
def castU (w : ℕ) (q : ℚ) : ℕ :=
  ((ratTrunc q).emod (2 ^ w)).toNat

/-- `dict2sarray` storage of a raw header dict: each field is reduced to
its declared width (floats are kept exact in this model). -/
def normHeader (h : Header) : Header where
  ID := fit6 h.ID
  MAGIC := h.MAGIC % 2 ^ 16
  Data_offset_1 := h.Data_offset_1 % 2 ^ 32
  Data_offset_2 := h.Data_offset_2 % 2 ^ 32
  UNKNOWN1 := h.UNKNOWN1 % 2 ^ 32
  DP_SZ := h.DP_SZ % 2 ^ 16
  DP_rotation := h.DP_rotation % 2 ^ 16
  NX := h.NX % 2 ^ 16
  NY := h.NY % 2 ^ 16
  Scan_rotation := h.Scan_rotation % 2 ^ 16
  SX := h.SX
  SY := h.SY
  Beam_energy := h.Beam_energy % 2 ^ 32
  SDP := h.SDP % 2 ^ 16
  Camera_length := h.Camera_length % 2 ^ 32
  Aquisiton_time := h.Aquisiton_time
  Centering := fitQ 8 h.Centering
  Distortion := fitQ 14 h.Distortion

/-- `get_header_from_signal` (lines 111-140).  Mirrors the source exactly:
both `SX` and `SY` are read from `signal.axes_manager.navigation_axes[0]`
(line 121 repeats index 0); the square check raises `ValueError`;
`SDP = 100. / signal_scale` raises `ZeroDivisionError` on a zero scale;
`offset2 = NX*NY + Data_offset_1; offset2 += offset2 % 16` in unsigned
32-bit arithmetic. -/
def get_header_from_signal (e : ByteOrder) (now : ℚ) (sig : Signal) :
    Except Err (Header × List ℕ) :=
  let header0 : Header :=
    match sig.blockfile_header with
    | some (h, _) => normHeader h
    | none => get_default_header now
  let note : List ℕ :=
    match sig.blockfile_header with
    | some (_, n) => n
    | none => []
  let NX := sigNX sig
  let NY := sigNY sig
  let SX := sig.nav0_scale
  let SY := sig.nav0_scale
  if sigW sig ≠ sigH sig then
    Except.error (Err.valueErr "Blockfiles require signal shape to be square!")
  else if sig.sig_scale = 0 then
    Except.error Err.zeroDivErr
  else
    let DP_SZ := sigW sig
    let SDP : ℚ := 100 / sig.sig_scale
    let s := (NX * NY + header0.Data_offset_1) % 2 ^ 32
    let offset2 := (s + s % 16) % 2 ^ 32
    Except.ok
      ({ header0 with
          NX := NX % 2 ^ 16
          NY := NY % 2 ^ 16
          DP_SZ := DP_SZ % 2 ^ 16
          SX := SX
          SY := SY
          SDP := castU 16 SDP
          Data_offset_2 := offset2 }, note)

/-! ### Writer (`file_writer`, lines 205-238) -/

/-- Python `s[:j]` for a possibly negative bound `j`. -/
def pySliceTo (s : List ℕ) (j : ℤ) : List ℕ :=
  if 0 ≤ j then s.take j.toNat else s.take ((s.length : ℤ) + j).toNat

/-- Mean of a frame's pixels, cast to unsigned 8-bit: one cell of the
virtual bright-field image (`signal.mean(2j).mean(2j)` then `astype(u1)`). -/
def vbfCell (fr : List (List ℕ)) : ℕ :=
  castU 8 ((fr.flatten.sum : ℚ) / (fr.flatten.length : ℚ))

/-- The virtual bright-field block: an `[NY, NX]` u1 image written row-major. -/
def vbfBytes (sig : Signal) : List ℕ :=
  (sig.data.map (fun row => row.map vbfCell)).flatten

/-- Frames in scan order, flattened into raw u1 bytes
(`signal._iterate_signal()` + `img.astype(endianess+'u1')`). -/
def framesOf (sig : Signal) : List (List ℕ) :=
  sig.data.flatten.map (fun fr => fr.flatten.map (· % 256))

/-- The 6-byte frame marker: `dp_head` with `MAGIC = 0x55AA` (`u2`) and the
serial index (`u4`), both in the requested byte order. -/
def dpHead (e : ByteOrder) (serial : ℕ) : List ℕ :=
  putUint e 2 0x55AA ++ putUint e 4 serial

/-- The frame-writing loop (lines 231-237): each frame is preceded by its
marker; the serial starts at the `np.zeros` initial value 0 and is
incremented (unsigned 32-bit) after each frame; when the incremented
serial exceeds `lim = NX*NY` the loop raises `ValueError` — after the
offending frame's bytes have been emitted. -/
def writeFrames (e : ByteOrder) (frames : List (List ℕ)) (lim : ℕ) (serial : ℕ) :
    List ℕ × Option Err :=
  match frames with
  | [] => ([], none)
  | f :: rest =>
      let chunk := dpHead e serial ++ f
      let serial' := (serial + 1) % 2 ^ 32
      if serial' > lim then (chunk, some (Err.valueErr "Unexpected navigation size."))
      else
        let r := writeFrames e rest lim serial'
        (chunk ++ r.1, r.2)

/-- The byte order of the header sarray's dtype: the prior-header path
passes `endianess` to `get_header_dtype_list`, while `get_default_header`
builds its dtype without the endianness argument (line 101), i.e.
little-endian. -/
def headerOrder (sig : Signal) (e : ByteOrder) : ByteOrder :=
  match sig.blockfile_header with
  | some _ => e
  | none => ByteOrder.little

/-- Lines 213-214: the note string actually passed to `f.write` - sliced
with the (negative) bound `Data_offset_1 - f.tell() - len(note)` when it
does not fit the room before `Data_offset_1` (`hbLen` is `f.tell()` after
the header record, i.e. the record size). -/
def truncNote (off1 hbLen : ℕ) (note : List ℕ) : List ℕ :=
  if (note.length : ℤ) > (off1 : ℤ) - hbLen then
    pySliceTo note ((off1 : ℤ) - hbLen - note.length)
  else note

/-- The `with open(filename, 'wb')` block of `file_writer` (lines
208-237): header record, note (truncated to the room before
`Data_offset_1`), zero padding, virtual bright-field image, zero padding,
frame stack. -/
def writerBody (e : ByteOrder) (sig : Signal) (header : Header) (note : List ℕ) :
    List ℕ × Option Err :=
  let hb := encodeHeader (headerOrder sig e) header
  let off1 : ℤ := (header.Data_offset_1 : ℤ)
  let noteW := truncNote header.Data_offset_1 hb.length note
  let b1 := hb ++ noteW
  let zp1 : ℤ := off1 - (b1.length : ℤ)
  if zp1 < 0 then (b1, some (Err.valueErr "negative dimensions are not allowed"))
  else
    let b2 := b1 ++ List.replicate zp1.toNat 0
    let b3 := b2 ++ vbfBytes sig
    let zp2 : ℤ := (header.Data_offset_2 : ℤ) - (b3.length : ℤ)
    if zp2 < 0 then (b3, some (Err.valueErr "negative dimensions are not allowed"))
    else
      let b4 := b3 ++ List.replicate zp2.toNat 0
      let fr := writeFrames e (framesOf sig) (header.NX * header.NY % 2 ^ 16) 0
      (b4 ++ fr.1, fr.2)

/-- `file_writer` (lines 205-238), as the byte stream it writes plus the
error it raises, if any.  `now` stands for `datetime.utcnow()` inside
`get_default_header`. -/
def file_writer (e : ByteOrder) (now : ℚ) (sig : Signal) : List ℕ × Option Err :=
  match get_header_from_signal e now sig with
  | Except.error err => ([], some err)
  | Except.ok (header, note) => writerBody e sig header note

/-! ### Reader (`file_reader`, lines 143-202) -/

/-- Python `f.read(n)` at position `pos`: a negative `n` reads to EOF. -/
def pyRead (bs : List ℕ) (pos : ℕ) (n : ℤ) : List ℕ :=
  if n < 0 then bs.drop pos else (bs.drop pos).take n.toNat

/-- Python list indexing with negative wrap-around, for a list of length `n`. -/
def pyIdx (n : ℕ) (i : ℤ) : ℕ :=
  if i < 0 then ((n : ℤ) + i).toNat else i.toNat

/-- One axis dictionary produced by the reader. -/
structure AxisDescr where
  size : ℕ
  index_in_array : ℕ
  name : String
  scale : Option ℚ
  offset : ℚ
  units : String
deriving DecidableEq, Repr

/-- `100. / header['SDP']` when `SDP` is nonzero, else the `Undefined`
sentinel. -/
def sdpOf (h : Header) : Option ℚ :=
  if h.SDP ≠ 0 then some (100 / (h.SDP : ℚ)) else none

/-- The pixel cube the reader assembles: the memmap view is
`[NY, NX, rawLen]` u1 starting at `off2`, the first 6 bytes of each frame
are stripped, and the rest reshaped to `[NY, NX, sz, sz]` row-major. -/
def readCube (bs : List ℕ) (off2 NX NY sz rawLen : ℕ) :
    List (List (List (List ℕ))) :=
  (List.range NY).map fun y =>
    (List.range NX).map fun x =>
      (List.range sz).map fun py =>
        (List.range sz).map fun px =>
          bs.getD (off2 + (y * NX + x) * rawLen + 6 + py * sz + px) 0

/-- Everything `file_reader` returns that the claims mention. -/
structure ReadResult where
  data : List (List (List (List ℕ)))
  axes : List AxisDescr
  header : Header
  note : List ℕ
deriving DecidableEq, Repr

/-- `file_reader` (lines 143-202) on a byte source `bs`.

* With fewer bytes than the 240-byte record, `np.fromfile` returns an
  empty array and the subsequent `f.read(header['Data_offset_1'] -
  f.tell())` raises a `TypeError`; the reader performs no ID or MAGIC
  validation whatsoever.
* The memmap shape is `(NY, NX, DP_SZ*DP_SZ + 6)` in unsigned 16-bit
  arithmetic on the `DP_SZ` scalar; `np.memmap` raises `ValueError` when
  the file is shorter than `offset2` plus the mapped size, and the final
  `reshape` raises `ValueError` on a size mismatch.
* The axis list is built with index `i + 3 - dim`, `dim = 4`, i.e. Python
  indices `-1, 0, 1, 2` into the name/scale/unit tables — `pyIdx` models
  the negative wrap-around. -/
def readResult (e : ByteOrder) (bs : List ℕ) : ReadResult :=
  let h := decodeHeader e bs
  let note := pyRead bs 240 ((h.Data_offset_1 : ℤ) - 240)
  let rawLen := (h.DP_SZ * h.DP_SZ % 2 ^ 16 + 6) % 2 ^ 16
  let names := ["x", "dy", "dx", "y"]
  let unitsL := ["nm", "cm", "cm", "nm"]
  let scales := [some h.SX, sdpOf h, sdpOf h, some h.SY]
  let sizes := [h.NY, h.NX, h.DP_SZ, h.DP_SZ]
  { data := readCube bs h.Data_offset_2 h.NX h.NY h.DP_SZ rawLen
    axes := (List.range 4).map fun i =>
      { size := sizes.getD i 0
        index_in_array := i
        name := names.getD (pyIdx 4 ((i : ℤ) + 3 - 4)) ""
        scale := scales.getD (pyIdx 4 ((i : ℤ) + 3 - 4)) none
        offset := 0
        units := unitsL.getD (pyIdx 4 ((i : ℤ) + 3 - 4)) "" }
    header := h
    note := note }

def file_reader (e : ByteOrder) (bs : List ℕ) : Except Err ReadResult :=
  if bs.length < 240 then Except.error (Err.typeErr "an integer is required")
  else
    let h := decodeHeader e bs
    let rawLen := (h.DP_SZ * h.DP_SZ % 2 ^ 16 + 6) % 2 ^ 16
    if bs.length < h.Data_offset_2 + h.NY * h.NX * rawLen then
      Except.error (Err.valueErr "mmap length is greater than file size")
    else if h.NY * h.NX * (rawLen - 6) ≠ h.NY * h.NX * (h.DP_SZ * h.DP_SZ) then
      Except.error (Err.valueErr "cannot reshape array")
    else
      Except.ok (readResult e bs)

/-! ### Serial dates (`_from_serial_date` / `_to_serial_date`, lines 42-54)

Timestamps are modelled as exact rational seconds since the epoch
1899-12-30 00:00 UTC.  `timedelta` normalization gives
`days = ⌊t/86400⌋` and `seconds = ⌊t - 86400*days⌋` (microseconds are a
separate component that `_to_serial_date` never reads). -/

/-- `_to_serial_date`: `float(delta.days) + float(delta.seconds) / 86400`.
Sub-second precision is dropped. -/
def to_serial_date (t : ℚ) : ℚ :=
  let days : ℤ := ⌊t / 86400⌋
  let secs : ℤ := ⌊t - 86400 * days⌋
  (days : ℚ) + (secs : ℚ) / 86400

/-- `_from_serial_date`: `origin + timedelta(int(serial), secs, secs/1000)`
with `secs = (serial % 1.0) * 86400.0`.  The third `timedelta` argument is
microseconds, so the decoded instant carries a spurious extra
`secs / 10^9` seconds. -/
def from_serial_date (s : ℚ) : ℚ :=
  let secs : ℚ := (s - ⌊s⌋) * 86400
  let days : ℤ := ratTrunc s
  86400 * (days : ℚ) + secs + secs / 1000 / 1000000

/-! ### Concrete cubes and signals for the claims -/

/-- The `[NY=3, NX=2, 4, 4]` cube with entries given by `c`. -/
def cubeOf (c : ℕ → ℕ → ℕ → ℕ → ℕ) : List (List (List (List ℕ))) :=
  (List.range 3).map fun y =>
    (List.range 2).map fun x =>
      (List.range 4).map fun py =>
        (List.range 4).map fun px => c y x py px

/-- `cubeOf c` with every entry reduced mod 256 (the u1 bytes on disk). -/
def cubeOfMod (c : ℕ → ℕ → ℕ → ℕ → ℕ) : List (List (List (List ℕ))) :=
  (List.range 3).map fun y =>
    (List.range 2).map fun x =>
      (List.range 4).map fun py =>
        (List.range 4).map fun px => c y x py px % 256

/-- A signal holding `cubeOf c` with unit scales and no stored raw header. -/
def sigOf (c : ℕ → ℕ → ℕ → ℕ → ℕ) : Signal where
  data := cubeOf c
  nav0_scale := 1
  nav1_scale := 1
  sig_scale := 1
  blockfile_header := none

deriving instance DecidableEq for Except

/-- A prior raw header whose `Data_offset_1` is exactly the record size,
leaving no room for a note (used to build small concrete files). -/
def hdr240 : Header := { (get_default_header 0) with Data_offset_1 := 240 }

/-- A 2×2 scan of 1×1 patterns with scan scales 1.5 and reciprocal scale 1,
carrying `hdr240` as its stored raw header. -/
def sigC6 : Signal where
  data := [[[[1]], [[2]]], [[[3]], [[4]]]]
  nav0_scale := 3 / 2
  nav1_scale := 3 / 2
  sig_scale := 1
  blockfile_header := some (hdr240, [])

/-- The bytes `file_writer` produces for `sigC6` (a 276-byte file). -/
def fileC6 : List ℕ := (file_writer ByteOrder.little 0 sigC6).1

/-- Extract the result of a successful read (dummy on error). -/
def readOk (x : Except Err ReadResult) : ReadResult :=
  match x with
  | Except.ok r => r
  | Except.error _ => { data := [], axes := [], header := get_default_header 0, note := [] }

/-- The `Data_offset_1` value `get_header_from_signal` will use: the stored
prior header's (as a 32-bit field), or the default `0x1000`. -/
def priorOff1 (sig : Signal) : ℕ :=
  match sig.blockfile_header with
  | some (h, _) => h.Data_offset_1 % 2 ^ 32
  | none => 0x1000

/-- C9 failing input: distinct scan-step scales on the two navigation axes. -/
def sigC9 : Signal where
  data := [[[[7]]]]
  nav0_scale := 3 / 2
  nav1_scale := 5 / 2
  sig_scale := 1
  blockfile_header := none

/-- C9: with navigation scales x = 3/2 and y = 5/2, the header written by
`get_header_from_signal` carries `SY = 3/2` — the x-axis scale — because
line 121 reads `navigation_axes[0].scale` for both `SX` and `SY`; the
claim (and the spec's write contract) require `SY = 5/2`. -/
theorem C9_sy_copies_sx :
    (get_header_from_signal ByteOrder.little 0 sigC9).map (fun p => (p.1.SX, p.1.SY))
      = Except.ok ((3 : ℚ) / 2, (3 : ℚ) / 2)
    ∧ sigC9.nav1_scale = (5 : ℚ) / 2 ∧ ((3 : ℚ) / 2) ≠ (5 : ℚ) / 2 := by
  refine ⟨by decide, by decide, by norm_num⟩

/-- C3: writing any signal whose pattern is not square fails with the
`ValueError` from line 124 before a single byte is emitted — the header is
derived before the destination is even opened. -/
theorem C3_nonsquare_rejected (e : ByteOrder) (now : ℚ) (sig : Signal)
    (h : sigW sig ≠ sigH sig) :
    file_writer e now sig
      = ([], some (Err.valueErr "Blockfiles require signal shape to be square!")) := by
  unfold file_writer get_header_from_signal
  rw [if_pos h]

/-- Witness for `C3_nonsquare_rejected`: a 1×2 (non-square) pattern. -/
theorem C3_nonsquare_rejected_witness :
    sigW { data := [[[[1, 2]]]], nav0_scale := 1, nav1_scale := 1, sig_scale := 1,
           blockfile_header := none
           : Signal }
      ≠ sigH { data := [[[[1, 2]]]], nav0_scale := 1, nav1_scale := 1, sig_scale := 1,
               blockfile_header := none }
    ∧ file_writer ByteOrder.little 0
        { data := [[[[1, 2]]]], nav0_scale := 1, nav1_scale := 1, sig_scale := 1,
          blockfile_header := none }
      = ([], some (Err.valueErr "Blockfiles require signal shape to be square!")) :=
  ⟨by decide, C3_nonsquare_rejected ByteOrder.little 0 _ (by decide)⟩

/-- C2: for every write whose inputs stay in unsigned 32-bit range, the
header field `Data_offset_2` equals the literal add-the-remainder formula
`NX*NY + Data_offset_1 + ((NX*NY + Data_offset_1) mod 16)` (lines
128-131); and at the concrete write of a 3×2 scan with the default
`Data_offset_1 = 0x1000` the result, 4108, is not a multiple of 16. -/
theorem C2_offset_formula (e : ByteOrder) (now : ℚ) (sig : Signal)
    (hsq : sigW sig = sigH sig) (hsc : sig.sig_scale ≠ 0)
    (hov : sigNX sig * sigNY sig + priorOff1 sig + 16 < 2 ^ 32) :
    (get_header_from_signal e now sig).map (fun p => p.1.Data_offset_2)
      = Except.ok (sigNX sig * sigNY sig + priorOff1 sig
          + (sigNX sig * sigNY sig + priorOff1 sig) % 16)
    ∧ (get_header_from_signal ByteOrder.little 0 (sigOf fun _ _ _ _ => 0)).map
        (fun p => p.1.Data_offset_2) = Except.ok 4108
    ∧ ¬ (16 ∣ 4108) := by
  refine ⟨?_, by decide, by decide⟩
  have hW : ¬ (sigW sig ≠ sigH sig) := fun hne => hne hsq
  rcases hb : sig.blockfile_header with - | ⟨h0, n0⟩
  · simp only [get_header_from_signal, hb, Except.map, if_neg hW, if_neg hsc]
    simp only [priorOff1, hb] at hov ⊢
    simp only [get_default_header]
    congr 1
    omega
  · simp only [get_header_from_signal, hb, Except.map, if_neg hW, if_neg hsc]
    simp only [priorOff1, hb] at hov ⊢
    simp only [normHeader]
    congr 1
    omega

/-- Witness for `C2_offset_formula` at the 3×2 scan of 4×4 zero patterns. -/
theorem C2_offset_formula_witness :
    sigW (sigOf fun _ _ _ _ => 0) = sigH (sigOf fun _ _ _ _ => 0)
    ∧ (sigOf fun _ _ _ _ => 0).sig_scale ≠ 0
    ∧ sigNX (sigOf fun _ _ _ _ => 0) * sigNY (sigOf fun _ _ _ _ => 0)
        + priorOff1 (sigOf fun _ _ _ _ => 0) + 16 < 2 ^ 32
    ∧ (get_header_from_signal ByteOrder.little 0 (sigOf fun _ _ _ _ => 0)).map
        (fun p => p.1.Data_offset_2)
      = Except.ok (sigNX (sigOf fun _ _ _ _ => 0) * sigNY (sigOf fun _ _ _ _ => 0)
          + priorOff1 (sigOf fun _ _ _ _ => 0)
          + (sigNX (sigOf fun _ _ _ _ => 0) * sigNY (sigOf fun _ _ _ _ => 0)
              + priorOff1 (sigOf fun _ _ _ _ => 0)) % 16) :=
  ⟨by decide, by decide, by decide,
    (C2_offset_formula ByteOrder.little 0 (sigOf fun _ _ _ _ => 0)
      (by decide) (by decide) (by decide)).1⟩

/-! ### C5: endianness coverage of the dtype list -/

/-- The field names of the two vendor calibration blocks. -/
def exemptField (name : String) : Bool :=
  ((List.range 8).map (fun i => "Centering_N" ++ Nat.repr i)
    ++ (List.range 14).map (fun i => "Distortion_N" ++ pad2 i)).contains name

/-- The claim's reading: every multi-byte numeric field carries the
selected byte order (raw-byte fields are order-free). -/
def fieldOrderClaim (sel : ByteOrder) (p : String × FieldKind) : Bool :=
  match p.2 with
  | FieldKind.bytesN _ => true
  | FieldKind.u2 o => o == sel
  | FieldKind.u4 o => o == sel
  | FieldKind.f8 o => o == sel

/-- The amended reading: every multi-byte numeric field carries the
selected byte order except the `Centering_N*`/`Distortion_N*` blocks,
which carry native order. -/
def fieldOrderSpec (sel : ByteOrder) (p : String × FieldKind) : Bool :=
  match p.2 with
  | FieldKind.bytesN _ => true
  | FieldKind.u2 o => o == sel
  | FieldKind.u4 o => o == sel
  | FieldKind.f8 o => if exemptField p.1 then o == ByteOrder.native else o == sel

/-- A header whose `Centering_N0` is 1.5, to make the byte order visible. -/
def hC5 : Header := { (get_default_header 0) with Centering := [3 / 2, 0, 0, 0, 0, 0, 0, 0] }

/-- C5 counterexample: under the big-endian configuration the claim fails —
the `Centering_N0` descriptor carries native (little) order, not the
selected one, and the bytes actually emitted for `Centering_N0 = 1.5` at
offset 64 are the little-endian image, not the big-endian one. -/
theorem C5_centering_native_cex :
    (get_header_dtype_list ByteOrder.big).all (fieldOrderClaim ByteOrder.big) = false
    ∧ ("Centering_N0", FieldKind.f8 ByteOrder.native) ∈ get_header_dtype_list ByteOrder.big
    ∧ ((encodeHeader ByteOrder.big hC5).drop 64).take 8 = leBytes 8 (f8_encode_nat (3 / 2))
    ∧ leBytes 8 (f8_encode_nat (3 / 2))
        ≠ orderBytes ByteOrder.big (leBytes 8 (f8_encode_nat (3 / 2))) := by
  refine ⟨by decide, by decide, by decide, by decide⟩

/-- C5 amended: for both recognized configurations every multi-byte field
of the dtype list carries the selected byte order except the 22
`Centering_N*`/`Distortion_N*` floats, which are spelled without a prefix
and carry native order — which on the little-endian hosts this code runs
on serializes identically to little-endian; the 6-byte ID tag is
byte-order-free. -/
theorem C5_field_orders_amended :
    (get_header_dtype_list ByteOrder.little).all (fieldOrderSpec ByteOrder.little) = true
    ∧ (get_header_dtype_list ByteOrder.big).all (fieldOrderSpec ByteOrder.big) = true
    ∧ orderBytes ByteOrder.native = orderBytes ByteOrder.little := by
  refine ⟨by decide, by decide, rfl⟩

/-! ### C7: what the reader actually rejects -/

/-- `fileC6` with its first 8 bytes replaced: the ID reads `"XXXXXX"` and
the MAGIC reads 0, yet the payload is untouched. -/
def fileC7 : List ℕ := [88, 88, 88, 88, 88, 88, 0, 0] ++ fileC6.drop 8

/-- Did the read succeed? -/
def readerOk (x : Except Err ReadResult) : Bool :=
  match x with
  | Except.ok _ => true
  | Except.error _ => false

/-- C7 counterexample: a file long enough for the header whose ID is not
`"IMGBLO"` and whose MAGIC is not `0x0102` is read successfully — the
reader never validates either field, contradicting the claim that such
inputs fail with `MalformedHeader`. -/
theorem C7_no_id_check_cex :
    readerOk (file_reader ByteOrder.little fileC7) = true
    ∧ (decodeHeader ByteOrder.little fileC7).ID ≠ imgblo
    ∧ (decodeHeader ByteOrder.little fileC7).MAGIC ≠ 0x0102
    ∧ 240 ≤ fileC7.length := by
  refine ⟨by decide, by decide, by decide, by decide⟩

/-- C7 amended: the reader aborts with the header-stage failure (a
`TypeError`, since `np.fromfile` silently returns an empty record and the
subsequent arithmetic on it blows up) exactly when the source holds fewer
bytes than the 240-byte record; ID and MAGIC are never checked. -/
theorem C7_short_header_amended (e : ByteOrder) (bs : List ℕ) :
    file_reader e bs = Except.error (Err.typeErr "an integer is required")
      ↔ bs.length < 240 := by
  constructor
  · intro h
    by_contra hn
    simp only [file_reader, if_neg hn] at h
    split at h
    · simp at h
    · split at h
      · simp at h
      · simp at h
  · intro h
    rw [file_reader, if_pos h]

/-! ### C6: the axis descriptors the reader emits -/

/-- C6 counterexample: the spec scenario (`SX = SY = 1.5`, `SDP = 100`,
hence reciprocal scale 1) written and read back yields the scale list
`[1.5, 1.5, 1.0, 1.0]` in descriptor order `[y, x, dy, dx]` — not the
claimed `[1.5, 1.0, 1.0, 1.5]` in order `[x, dy, dx, y]`. -/
theorem C6_axis_order_cex :
    (file_reader ByteOrder.little fileC6).map (fun r => r.axes.map (fun a => a.scale))
      = Except.ok [some ((3 : ℚ) / 2), some ((3 : ℚ) / 2), some 1, some 1]
    ∧ (file_reader ByteOrder.little fileC6).map (fun r => r.axes.map (fun a => a.name))
      = Except.ok ["y", "x", "dy", "dx"]
    ∧ ([some ((3 : ℚ) / 2), some ((3 : ℚ) / 2), some 1, some 1]
        ≠ [some ((3 : ℚ) / 2), some 1, some 1, some ((3 : ℚ) / 2)]) := by
  refine ⟨by decide, by decide, by decide⟩

/-- C6 amended: every successful read emits exactly four axis descriptors,
in order `[y (scan row), x (scan column), dy, dx]` — the `i + 3 - dim`
indexing of lines 186-194 wraps to `-1` for `i = 0` — with pixel counts
`(NY, NX, DP_SZ, DP_SZ)`, scales `(SY, SX, 100/SDP, 100/SDP)` (the
reciprocal scale an `Undefined` sentinel when `SDP = 0`), units
`(nm, nm, cm, cm)`, and offset 0. -/
theorem C6_axes_amended (e : ByteOrder) (bs : List ℕ) (r : ReadResult)
    (h : file_reader e bs = Except.ok r) :
    r.axes = [
      { size := (decodeHeader e bs).NY, index_in_array := 0, name := "y",
        scale := some (decodeHeader e bs).SY, offset := 0, units := "nm" },
      { size := (decodeHeader e bs).NX, index_in_array := 1, name := "x",
        scale := some (decodeHeader e bs).SX, offset := 0, units := "nm" },
      { size := (decodeHeader e bs).DP_SZ, index_in_array := 2, name := "dy",
        scale := sdpOf (decodeHeader e bs), offset := 0, units := "cm" },
      { size := (decodeHeader e bs).DP_SZ, index_in_array := 3, name := "dx",
        scale := sdpOf (decodeHeader e bs), offset := 0, units := "cm" } ] := by
  simp only [file_reader] at h
  split at h
  · simp at h
  · split at h
    · simp at h
    · split at h
      · simp at h
      · injection h with h2
        subst h2
        rfl

/-- Witness for `C6_axes_amended` at the concrete file `fileC6`. -/
theorem C6_axes_amended_witness :
    file_reader ByteOrder.little fileC6
      = Except.ok (readOk (file_reader ByteOrder.little fileC6))
    ∧ (readOk (file_reader ByteOrder.little fileC6)).axes = [
      { size := (decodeHeader ByteOrder.little fileC6).NY, index_in_array := 0, name := "y",
        scale := some (decodeHeader ByteOrder.little fileC6).SY, offset := 0, units := "nm" },
      { size := (decodeHeader ByteOrder.little fileC6).NX, index_in_array := 1, name := "x",
        scale := some (decodeHeader ByteOrder.little fileC6).SX, offset := 0, units := "nm" },
      { size := (decodeHeader ByteOrder.little fileC6).DP_SZ, index_in_array := 2, name := "dy",
        scale := sdpOf (decodeHeader ByteOrder.little fileC6), offset := 0, units := "cm" },
      { size := (decodeHeader ByteOrder.little fileC6).DP_SZ, index_in_array := 3, name := "dx",
        scale := sdpOf (decodeHeader ByteOrder.little fileC6), offset := 0, units := "cm" } ] :=
  ⟨rfl, C6_axes_amended ByteOrder.little fileC6 _ rfl⟩

/-! ### C10: serial-date round-trip -/

/-- C10 counterexample: the millisecond-representable timestamp
`t = 86400.5 s` after the epoch (1899-12-31 00:00:00.500 UTC) round-trips
to `86400 s` — an error of a full half second, far beyond 1 ms — because
`_to_serial_date` reads only `delta.days` and `delta.seconds` and drops
sub-second precision entirely. -/
theorem C10_halfsecond_cex :
    from_serial_date (to_serial_date (172801 / 2)) = 86400
    ∧ |from_serial_date (to_serial_date ((172801 : ℚ) / 2)) - 172801 / 2| > 1 / 1000
    ∧ ((172801 : ℚ) / 2) * 1000 = ((86400500 : ℤ) : ℚ) := by
  refine ⟨by decide, by decide, by decide⟩

/-- C10 amended: for every timestamp at or after the 1899-12-30 epoch the
round-trip recovers `t` only to within 1 second: the encoder truncates to
whole `delta.seconds`, and the decoder adds a spurious `secs/1000`
microseconds (at most 86.4 µs), so the total error lies in `(-1, 1)`
seconds but not within 1 ms. -/
theorem C10_second_roundtrip_amended (t : ℚ) (ht : 0 ≤ t) :
    |from_serial_date (to_serial_date t) - t| < 1 := by
  simp only [to_serial_date, from_serial_date, ratTrunc]
  set d : ℤ := ⌊t / 86400⌋ with hd
  set S : ℤ := ⌊t - 86400 * (d : ℚ)⌋ with hS
  have hd0 : 0 ≤ d := Int.floor_nonneg.mpr (by positivity)
  have hdle : ((d : ℚ)) ≤ t / 86400 := Int.floor_le _
  have hrem0 : 0 ≤ t - 86400 * (d : ℚ) := by
    have h2 : (d : ℚ) * 86400 ≤ t := (le_div_iff₀ (by norm_num)).mp hdle
    linarith
  have hrem1 : t - 86400 * (d : ℚ) < 86400 := by
    have h1 : t / 86400 < d + 1 := Int.lt_floor_add_one _
    have h2 : t < ((d : ℚ) + 1) * 86400 := (div_lt_iff₀ (by norm_num)).mp h1
    linarith
  have hS0i : 0 ≤ S := Int.floor_nonneg.mpr hrem0
  have hS0 : (0 : ℚ) ≤ (S : ℚ) := Int.cast_nonneg.mpr hS0i
  have hSle : (S : ℚ) ≤ t - 86400 * d := Int.floor_le _
  have hSlt : t - 86400 * (d : ℚ) < S + 1 := Int.lt_floor_add_one _
  have hS1 : (S : ℚ) < 86400 := lt_of_le_of_lt hSle hrem1
  have hfrac0 : (0 : ℚ) ≤ (S : ℚ) / 86400 := by positivity
  have hfrac1 : (S : ℚ) / 86400 < 1 := by
    rw [div_lt_one (by norm_num)]
    exact hS1
  have hfl : ⌊(d : ℚ) + (S : ℚ) / 86400⌋ = d := by
    rw [add_comm, Int.floor_add_int, Int.floor_eq_zero_iff.mpr ⟨hfrac0, hfrac1⟩, zero_add]
  have hser0 : ¬ ((d : ℚ) + (S : ℚ) / 86400 < 0) := by
    push_neg
    positivity
  rw [if_neg hser0, hfl]
  rw [abs_lt]
  constructor <;> [skip; skip] <;> nlinarith [hSle, hSlt, hS0, hS1]

/-- Witness for `C10_second_roundtrip_amended` at `t = 86400.5 s`. -/
theorem C10_second_roundtrip_amended_witness :
    (0 : ℚ) ≤ 172801 / 2
    ∧ |from_serial_date (to_serial_date ((172801 : ℚ) / 2)) - 172801 / 2| < 1 :=
  ⟨by norm_num, C10_second_roundtrip_amended (172801 / 2) (by norm_num)⟩

/-! ### C4: frame markers -/

theorem drop_append_len {α : Type} (a b : List α) (n : ℕ) :
    (a ++ b).drop (a.length + n) = b.drop n := by
  induction a with
  | nil => simp
  | cons x xs ih => simp [Nat.succ_add, ih]

/-- The marker preceding the frame at 0-based position `j` of the loop
carries serial `s + j`, where `s` is the starting serial. -/
theorem wf_marker (e : ByteOrder) (L : ℕ) :
    ∀ (frames : List (List ℕ)) (lim s j : ℕ),
      (∀ f ∈ frames, f.length = L) → j < frames.length → s + j ≤ lim →
      lim + 1 < 2 ^ 32 →
      ((writeFrames e frames lim s).1.drop (j * (6 + L))).take 6
        = putUint e 2 0x55AA ++ putUint e 4 (s + j)
  | [], lim, s, j, hL, hj, hsj, hlim => absurd hj (by simp)
  | f :: fs, lim, s, j, hL, hj, hsj, hlim => by
    have hfl : f.length = L := hL f (List.mem_cons_self f fs)
    have h6 : (dpHead e s).length = 6 := by simp [dpHead]
    cases j with
    | zero =>
        simp only [writeFrames]
        split
        · dsimp only
          rw [Nat.zero_mul, List.drop_zero, List.take_left' h6, dpHead]
          simp
        · rw [Nat.zero_mul, List.drop_zero, List.append_assoc, List.take_left' h6, dpHead]
          simp
    | succ j' =>
        have hs1 : s + 1 ≤ lim := by omega
        have hmod : (s + 1) % 2 ^ 32 = s + 1 := Nat.mod_eq_of_lt (by omega)
        have hnot : ¬ ((s + 1) % 2 ^ 32 > lim) := by
          rw [hmod]
          omega
        simp only [writeFrames, if_neg hnot]
        rw [List.append_assoc]
        have harith : (j' + 1) * (6 + L) = (dpHead e s).length + (f.length + j' * (6 + L)) := by
          rw [h6, hfl]
          ring
        rw [harith, drop_append_len, drop_append_len, hmod]
        have ihr := wf_marker e L fs lim (s + 1) j'
          (fun g hg => hL g (List.mem_cons_of_mem f hg))
          (by simp only [List.length_cons] at hj; omega) (by omega) hlim
        rw [ihr]
        congr 2
        omega

/-- The frame loop raises `ValueError` exactly when more frames are
supplied than `lim` allows, and raises nothing otherwise. -/
theorem wf_err (e : ByteOrder) :
    ∀ (frames : List (List ℕ)) (lim s : ℕ), s ≤ lim → lim + 1 < 2 ^ 32 →
      (writeFrames e frames lim s).2
        = if s + frames.length ≤ lim then none
          else some (Err.valueErr "Unexpected navigation size.")
  | [], lim, s, hs, hlim => by
      simp [writeFrames, hs]
  | f :: fs, lim, s, hs, hlim => by
      have hmod : (s + 1) % 2 ^ 32 = s + 1 := Nat.mod_eq_of_lt (by omega)
      by_cases hgt : s + 1 > lim
      · have hc : (s + 1) % 2 ^ 32 > lim := by rw [hmod]; exact hgt
        simp only [writeFrames, if_pos hc]
        rw [if_neg (by simp only [List.length_cons]; omega)]
      · have hc : ¬ ((s + 1) % 2 ^ 32 > lim) := by rw [hmod]; exact hgt
        simp only [writeFrames, if_neg hc]
        rw [hmod, wf_err e fs lim (s + 1) (by omega) hlim]
        have hlen : s + 1 + fs.length = s + (f :: fs).length := by
          simp
          omega
        rw [hlen]

/-- C4 counterexample: in the file written for `sigC6` (diffraction stack
at offset 248) the marker preceding the first frame is the magic followed
by serial 0, not the claimed serial 1; the second frame carries serial 1. -/
theorem C4_serial_starts_at_zero_cex :
    (fileC6.drop 248).take 6 = putUint ByteOrder.little 2 0x55AA ++ putUint ByteOrder.little 4 0
    ∧ (fileC6.drop 248).take 6 ≠ putUint ByteOrder.little 2 0x55AA ++ putUint ByteOrder.little 4 1
    ∧ ((fileC6.drop (248 + 7)).take 6
        = putUint ByteOrder.little 2 0x55AA ++ putUint ByteOrder.little 4 1) := by
  refine ⟨by decide, by decide, by decide⟩

/-- C4 amended: for every frame written in scan order, the 6-byte marker
preceding the k-th frame (k counted from 1) is the 2-byte magic `0x55AA`
followed by a 4-byte serial index equal to `k - 1`, both in the selected
byte order — the serial starts at 0 (the `np.zeros` initial value) and
increments by 1 per frame; and the loop fails with
`ValueError('Unexpected navigation size.')` exactly when the number of
frames exceeds `NX*NY` (the error being raised only after the bytes of
frame `NX*NY + 1` have been emitted). -/
theorem C4_frame_markers_amended (e : ByteOrder) (frames : List (List ℕ)) (lim L k : ℕ)
    (hL : ∀ f ∈ frames, f.length = L) (hlim : lim + 1 < 2 ^ 32)
    (hk1 : 1 ≤ k) (hk2 : k ≤ frames.length) (hk3 : k ≤ lim + 1) :
    (((writeFrames e frames lim 0).1.drop ((k - 1) * (6 + L))).take 6
        = putUint e 2 0x55AA ++ putUint e 4 (k - 1))
    ∧ ((writeFrames e frames lim 0).2
        = if frames.length ≤ lim then none
          else some (Err.valueErr "Unexpected navigation size.")) := by
  constructor
  · have hm := wf_marker e L frames lim 0 (k - 1) hL (by omega) (by omega) hlim
    simpa using hm
  · have he := wf_err e frames lim 0 (by omega) hlim
    simpa using he

/-- Witness for `C4_frame_markers_amended`: two 1-byte frames, `lim = 4`,
first frame. -/
theorem C4_frame_markers_amended_witness :
    (∀ f ∈ [[1], [2]], f.length = 1) ∧ 4 + 1 < 2 ^ 32 ∧ 1 ≤ 1 ∧ 1 ≤ 2 ∧ 1 ≤ 4 + 1
    ∧ ((((writeFrames ByteOrder.little [[1], [2]] 4 0).1.drop ((1 - 1) * (6 + 1))).take 6
        = putUint ByteOrder.little 2 0x55AA ++ putUint ByteOrder.little 4 (1 - 1))
    ∧ ((writeFrames ByteOrder.little [[1], [2]] 4 0).2
        = if ([[1], [2]] : List (List ℕ)).length ≤ 4 then none
          else some (Err.valueErr "Unexpected navigation size."))) :=
  ⟨by decide, by decide, by decide, by decide, by decide,
    C4_frame_markers_amended ByteOrder.little [[1], [2]] 4 1 1
      (by decide) (by decide) (by decide) (by decide) (by decide)⟩

/-! ### C8: note truncation -/

theorem take_append_len {α : Type} (a b : List α) (n : ℕ) :
    (a ++ b).take (a.length + n) = a ++ b.take n := by
  induction a with
  | nil => simp
  | cons x xs ih => simp [Nat.succ_add, ih]

/-- The negative-bound slice of lines 213-214 is exactly "keep the first
`Data_offset_1 - 240` bytes" when the note is too long, and the identity
otherwise. -/
theorem truncNote_eq (off1 : ℕ) (note : List ℕ) (hoff : 240 ≤ off1) :
    truncNote off1 240 note
      = if off1 - 240 < note.length then note.take (off1 - 240) else note := by
  unfold truncNote pySliceTo
  by_cases h : off1 - 240 < note.length
  · rw [if_pos (by push_cast; omega), if_neg (by push_cast; omega), if_pos h]
    congr 1
    push_cast
    omega
  · rw [if_neg (by push_cast; omega), if_neg h]

theorem truncNote_length (off1 : ℕ) (note : List ℕ) (hoff : 240 ≤ off1) :
    (truncNote off1 240 note).length = min note.length (off1 - 240) := by
  rw [truncNote_eq off1 note hoff]
  split
  · simp [List.length_take]
    omega
  · simp
    omega

/-- A single-position scan of a single 1×1 pattern `[7]`, with an
arbitrary prior raw header and note — the signal used to exercise the
writer's note handling. -/
def sigC8 (h0 : Header) (note0 : List ℕ) : Signal :=
  { data := [[[[7]]]], nav0_scale := 1, nav1_scale := 1, sig_scale := 1,
    blockfile_header := some (h0, note0) }

/-- The header `get_header_from_signal` derives for `sigC8 h0 _`. -/
def hdrC8 (h0 : Header) : Header :=
  { normHeader h0 with
      NX := 1 % 2 ^ 16, NY := 1 % 2 ^ 16, DP_SZ := 1 % 2 ^ 16, SX := 1, SY := 1,
      SDP := castU 16 (100 / 1),
      Data_offset_2 := ((1 * 1 + (normHeader h0).Data_offset_1) % 2 ^ 32
        + (1 * 1 + (normHeader h0).Data_offset_1) % 2 ^ 32 % 16) % 2 ^ 32 }

theorem vbf_sigC8_length (h0 : Header) (note0 : List ℕ) :
    (vbfBytes (sigC8 h0 note0)).length = 1 := rfl

theorem framesOf_sigC8 (h0 : Header) (note0 : List ℕ) :
    framesOf (sigC8 h0 note0) = [[7]] := rfl

theorem hget_sigC8 (e : ByteOrder) (h0 : Header) (note0 : List ℕ) :
    get_header_from_signal e 0 (sigC8 h0 note0) = Except.ok (hdrC8 h0, note0) := rfl

section SymbolicWriter

attribute [local irreducible] encodeHeader vbfBytes framesOf writeFrames truncNote

/-- Layout of a successful `writerBody` run: header record, truncated
note, zero padding to `Data_offset_1`, virtual bright-field block, zero
padding to `Data_offset_2`, then the frame stack. -/
theorem writerBody_eq (e : ByteOrder) (sig : Signal) (hd : Header) (note : List ℕ)
    (hoff : 240 ≤ hd.Data_offset_1)
    (hoff2 : hd.Data_offset_1 + (vbfBytes sig).length ≤ hd.Data_offset_2) :
    writerBody e sig hd note
      = (encodeHeader (headerOrder sig e) hd
          ++ (truncNote hd.Data_offset_1 240 note
          ++ (List.replicate
                (hd.Data_offset_1 - 240 - (truncNote hd.Data_offset_1 240 note).length) 0
          ++ (vbfBytes sig
          ++ (List.replicate (hd.Data_offset_2 - hd.Data_offset_1 - (vbfBytes sig).length) 0
          ++ (writeFrames e (framesOf sig) (hd.NX * hd.NY % 2 ^ 16) 0).1)))),
         (writeFrames e (framesOf sig) (hd.NX * hd.NY % 2 ^ 16) 0).2) := by
  simp only [writerBody, encodeHeader_length]
  generalize htn : truncNote hd.Data_offset_1 240 note = tn
  have hT : tn.length = min note.length (hd.Data_offset_1 - 240) := by
    rw [← htn]
    exact truncNote_length _ _ hoff
  have hTle : tn.length ≤ hd.Data_offset_1 - 240 := by
    rw [hT]
    exact min_le_right _ _
  rw [if_neg (show ¬ ((hd.Data_offset_1 : ℤ)
      - ((encodeHeader (headerOrder sig e) hd ++ tn).length : ℤ) < 0) from by
    simp only [List.length_append, encodeHeader_length]
    push_cast
    omega)]
  have hp1 : ((hd.Data_offset_1 : ℤ)
      - ((encodeHeader (headerOrder sig e) hd ++ tn).length : ℤ)).toNat
      = hd.Data_offset_1 - 240 - tn.length := by
    simp only [List.length_append, encodeHeader_length]
    omega
  rw [hp1]
  split
  · rename_i hlt
    exfalso
    simp only [List.length_append, encodeHeader_length, List.length_replicate] at hlt
    omega
  · simp only [List.length_append, encodeHeader_length, List.length_replicate,
      List.append_assoc]
    congr 7
    omega

/-- C8: writing any note with a prior header whose `Data_offset_1` is at
least the record size succeeds with no error, and the bytes between
offset 240 and `Data_offset_1` are exactly the note's first
`Data_offset_1 - 240` characters, zero-padded: an over-long note is
silently truncated to exactly fit, a fitting note is written unchanged. -/
theorem C8_note_truncation (e : ByteOrder) (h0 : Header) (note0 : List ℕ)
    (hoff : 240 ≤ h0.Data_offset_1 % 2 ^ 32)
    (hov : h0.Data_offset_1 % 2 ^ 32 + 17 < 2 ^ 32) :
    (file_writer e 0 (sigC8 h0 note0)).2 = none
    ∧ ((file_writer e 0 (sigC8 h0 note0)).1.drop 240).take (h0.Data_offset_1 % 2 ^ 32 - 240)
        = note0.take (h0.Data_offset_1 % 2 ^ 32 - 240)
          ++ List.replicate (h0.Data_offset_1 % 2 ^ 32 - 240 - note0.length) 0 := by
  have hoff1 : (hdrC8 h0).Data_offset_1 = h0.Data_offset_1 % 2 ^ 32 := rfl
  have hoffd : 240 ≤ (hdrC8 h0).Data_offset_1 := by rw [hoff1]; exact hoff
  have hoff2 : (hdrC8 h0).Data_offset_1 + (vbfBytes (sigC8 h0 note0)).length
      ≤ (hdrC8 h0).Data_offset_2 := by
    rw [vbf_sigC8_length, hoff1]
    show _ ≤ ((1 * 1 + h0.Data_offset_1 % 2 ^ 32) % 2 ^ 32
      + (1 * 1 + h0.Data_offset_1 % 2 ^ 32) % 2 ^ 32 % 16) % 2 ^ 32
    omega
  have hlim : (hdrC8 h0).NX * (hdrC8 h0).NY % 2 ^ 16 = 1 := rfl
  have hsnd : (writeFrames e (framesOf (sigC8 h0 note0))
      ((hdrC8 h0).NX * (hdrC8 h0).NY % 2 ^ 16) 0).2 = none := by
    rw [framesOf_sigC8, hlim, wf_err e [[7]] 1 0 (by omega) (by norm_num)]
    norm_num
  have hw : file_writer e 0 (sigC8 h0 note0)
      = writerBody e (sigC8 h0 note0) (hdrC8 h0) note0 := by
    rw [file_writer, hget_sigC8]
  rw [hw, writerBody_eq e (sigC8 h0 note0) (hdrC8 h0) note0 hoffd hoff2]
  refine ⟨hsnd, ?_⟩
  rw [List.drop_left' (encodeHeader_length _ _), hoff1]
  set avail := h0.Data_offset_1 % 2 ^ 32 - 240 with havail
  have htn := truncNote_eq (h0.Data_offset_1 % 2 ^ 32) note0 hoff
  by_cases hc : avail < note0.length
  · rw [htn, if_pos hc]
    have hlen : (note0.take avail).length = avail := by
      simp [List.length_take]
      omega
    rw [List.take_left' hlen]
    have hz : avail - note0.length = 0 := by omega
    rw [hz]
    simp
  · rw [htn, if_neg hc]
    set k := avail - note0.length with hk
    rw [show avail = note0.length + k from by omega, take_append_len,
      List.take_left' (List.length_replicate k 0), List.take_of_length_le (by omega)]

end SymbolicWriter

/-- Witness for `C8_note_truncation`: `Data_offset_1 = 300` and a 100-byte
note (longer than the 60 available bytes). -/
theorem C8_note_truncation_witness :
    240 ≤ ({ (get_default_header 0) with Data_offset_1 := 300 : Header }).Data_offset_1 % 2 ^ 32
    ∧ ({ (get_default_header 0) with Data_offset_1 := 300 : Header }).Data_offset_1 % 2 ^ 32
        + 17 < 2 ^ 32
    ∧ ((file_writer ByteOrder.little 0
          (sigC8 { (get_default_header 0) with Data_offset_1 := 300 } (List.replicate 100 65))).2
        = none
    ∧ ((file_writer ByteOrder.little 0
          (sigC8 { (get_default_header 0) with Data_offset_1 := 300 }
            (List.replicate 100 65))).1.drop 240).take
          (({ (get_default_header 0) with Data_offset_1 := 300 : Header }).Data_offset_1
            % 2 ^ 32 - 240)
        = (List.replicate 100 65).take
            (({ (get_default_header 0) with Data_offset_1 := 300 : Header }).Data_offset_1
              % 2 ^ 32 - 240)
          ++ List.replicate
              (({ (get_default_header 0) with Data_offset_1 := 300 : Header }).Data_offset_1
                % 2 ^ 32 - 240 - (List.replicate 100 65).length) 0) :=
  ⟨by decide, by decide,
    C8_note_truncation ByteOrder.little { (get_default_header 0) with Data_offset_1 := 300 }
      (List.replicate 100 65) (by decide) (by decide)⟩

theorem drop_through {α : Type} (a b : List α) (n : ℕ) (h : a.length ≤ n) :
    (a ++ b).drop n = b.drop (n - a.length) := by
  conv_lhs => rw [show n = a.length + (n - a.length) from by omega]
  rw [drop_append_len]

theorem getD_append_right' {α : Type} (a b : List α) (d : α) (n : ℕ) (h : a.length ≤ n) :
    (a ++ b).getD n d = b.getD (n - a.length) d := by
  simp only [List.getD_eq_getElem?_getD, List.getElem?_append_right h]

theorem dec_off2 (e : ByteOrder) (h : Header) (r : List ℕ) :
    (decodeHeader e (encodeHeader e h ++ r)).Data_offset_2 = h.Data_offset_2 % 256 ^ 4 := by
  show getU e 4 ((encodeHeader e h ++ r).drop 12) = h.Data_offset_2 % 256 ^ 4
  simp only [encodeHeader, List.append_assoc]
  rw [drop_through _ _ _ (by simp), drop_through _ _ _ (by simp),
    drop_through _ _ _ (by simp)]
  simp only [fit6_length, putUint_length]
  norm_num [getU_putUint]

theorem dec_DP_SZ (e : ByteOrder) (h : Header) (r : List ℕ) :
    (decodeHeader e (encodeHeader e h ++ r)).DP_SZ = h.DP_SZ % 256 ^ 2 := by
  show getU e 2 ((encodeHeader e h ++ r).drop 20) = h.DP_SZ % 256 ^ 2
  simp only [encodeHeader, List.append_assoc]
  rw [drop_through _ _ _ (by simp), drop_through _ _ _ (by simp),
    drop_through _ _ _ (by simp), drop_through _ _ _ (by simp),
    drop_through _ _ _ (by simp)]
  simp only [fit6_length, putUint_length]
  norm_num [getU_putUint]

theorem dec_NX (e : ByteOrder) (h : Header) (r : List ℕ) :
    (decodeHeader e (encodeHeader e h ++ r)).NX = h.NX % 256 ^ 2 := by
  show getU e 2 ((encodeHeader e h ++ r).drop 24) = h.NX % 256 ^ 2
  simp only [encodeHeader, List.append_assoc]
  rw [drop_through _ _ _ (by simp), drop_through _ _ _ (by simp),
    drop_through _ _ _ (by simp), drop_through _ _ _ (by simp),
    drop_through _ _ _ (by simp), drop_through _ _ _ (by simp),
    drop_through _ _ _ (by simp)]
  simp only [fit6_length, putUint_length]
  norm_num [getU_putUint]

theorem dec_NY (e : ByteOrder) (h : Header) (r : List ℕ) :
    (decodeHeader e (encodeHeader e h ++ r)).NY = h.NY % 256 ^ 2 := by
  show getU e 2 ((encodeHeader e h ++ r).drop 26) = h.NY % 256 ^ 2
  simp only [encodeHeader, List.append_assoc]
  rw [drop_through _ _ _ (by simp), drop_through _ _ _ (by simp),
    drop_through _ _ _ (by simp), drop_through _ _ _ (by simp),
    drop_through _ _ _ (by simp), drop_through _ _ _ (by simp),
    drop_through _ _ _ (by simp), drop_through _ _ _ (by simp)]
  simp only [fit6_length, putUint_length]
  norm_num [getU_putUint]

/-- A `[3, 2, 4, 4]` cube of genuine unsigned 8-bit values, as a plain
`ℕ`-valued function. -/
def cubeFn (c : ℕ → ℕ → ℕ → ℕ → Fin 256) : ℕ → ℕ → ℕ → ℕ → ℕ :=
  fun y x py px => (c y x py px : ℕ)

/-- The header `get_header_from_signal` derives for `sigOf (cubeFn c)`. -/
def hdrC1 (now : ℚ) : Header :=
  { get_default_header now with
      NX := 2 % 2 ^ 16, NY := 3 % 2 ^ 16, DP_SZ := 4 % 2 ^ 16, SX := 1, SY := 1,
      SDP := castU 16 (100 / 1),
      Data_offset_2 := ((2 * 3 + (get_default_header now).Data_offset_1) % 2 ^ 32
        + (2 * 3 + (get_default_header now).Data_offset_1) % 2 ^ 32 % 16) % 2 ^ 32 }

set_option maxHeartbeats 3200000 in
theorem readCube_eq (c : ℕ → ℕ → ℕ → ℕ → Fin 256) (A F1 : List ℕ) (hA : A.length = 4108)
    (hF : F1 = (writeFrames ByteOrder.little (framesOf (sigOf (cubeFn c))) 6 0).1) :
    readCube (A ++ F1) 4108 2 3 4 22 = cubeOf (cubeFn c) := by
  subst hF
  unfold readCube cubeOf
  refine List.map_congr_left fun y hy => ?_
  refine List.map_congr_left fun x hx => ?_
  refine List.map_congr_left fun py hpy => ?_
  refine List.map_congr_left fun px hpx => ?_
  rw [List.mem_range] at hy hx hpy hpx
  rw [getD_append_right' A _ 0 _ (by omega),
    show 4108 + (y * 2 + x) * 22 + 6 + py * 4 + px - A.length
      = (y * 2 + x) * 22 + 6 + py * 4 + px from by omega]
  interval_cases y <;> interval_cases x <;> interval_cases py <;> interval_cases px <;>
    exact Nat.mod_eq_of_lt (Fin.is_lt _)

set_option maxHeartbeats 3200000 in
/-- C1: pixel round-trip. For every 4D cube of genuine unsigned 8-bit
values with shape `[NY=3, NX=2, 4, 4]`, `file_writer` succeeds (no error),
`file_reader` accepts the bytes produced, the cube it returns is identical
element-for-element to the original, and the decoded header has
`DP_SZ = 4`. -/
theorem C1_pixel_roundtrip (c : ℕ → ℕ → ℕ → ℕ → Fin 256) (now : ℚ) :
    (file_writer ByteOrder.little now (sigOf (cubeFn c))).2 = none
    ∧ readerOk (file_reader ByteOrder.little
        (file_writer ByteOrder.little now (sigOf (cubeFn c))).1) = true
    ∧ (readOk (file_reader ByteOrder.little
        (file_writer ByteOrder.little now (sigOf (cubeFn c))).1)).data = cubeOf (cubeFn c)
    ∧ (readOk (file_reader ByteOrder.little
        (file_writer ByteOrder.little now (sigOf (cubeFn c))).1)).header.DP_SZ = 4 := by
  have hget : get_header_from_signal ByteOrder.little now (sigOf (cubeFn c))
      = Except.ok (hdrC1 now, []) := rfl
  have hw : file_writer ByteOrder.little now (sigOf (cubeFn c))
      = writerBody ByteOrder.little (sigOf (cubeFn c)) (hdrC1 now) [] := by
    rw [file_writer, hget]
  have hoff1 : (hdrC1 now).Data_offset_1 = 4096 := rfl
  have hoff2 : (hdrC1 now).Data_offset_2 = 4108 := by norm_num [hdrC1, get_default_header]
  have hvbf : (vbfBytes (sigOf (cubeFn c))).length = 6 := rfl
  have hlim : (hdrC1 now).NX * (hdrC1 now).NY % 2 ^ 16 = 6 := rfl
  have htn : truncNote (hdrC1 now).Data_offset_1 240 [] = [] := rfl
  have hho : headerOrder (sigOf (cubeFn c)) ByteOrder.little = ByteOrder.little := rfl
  have hflen : (framesOf (sigOf (cubeFn c))).length = 6 := rfl
  have hf1len : (writeFrames ByteOrder.little (framesOf (sigOf (cubeFn c))) 6 0).1.length
      = 132 := rfl
  have hlay := writerBody_eq ByteOrder.little (sigOf (cubeFn c)) (hdrC1 now) []
    (by rw [hoff1]; norm_num) (by rw [hoff1, hoff2, hvbf]; norm_num)
  rw [htn, hoff1, hoff2, hvbf, hlim, hho] at hlay
  simp only [List.length_nil, List.nil_append] at hlay
  norm_num at hlay
  have hW : file_writer ByteOrder.little now (sigOf (cubeFn c))
      = (encodeHeader ByteOrder.little (hdrC1 now)
          ++ (List.replicate 3856 0
          ++ (vbfBytes (sigOf (cubeFn c))
          ++ (List.replicate 6 0
          ++ (writeFrames ByteOrder.little (framesOf (sigOf (cubeFn c))) 6 0).1))),
         (writeFrames ByteOrder.little (framesOf (sigOf (cubeFn c))) 6 0).2) := by
    rw [hw, hlay]
  have hdNX : (decodeHeader ByteOrder.little (file_writer ByteOrder.little now
      (sigOf (cubeFn c))).1).NX = 2 := by
    rw [hW]
    rw [dec_NX]
    rfl
  have hdNY : (decodeHeader ByteOrder.little (file_writer ByteOrder.little now
      (sigOf (cubeFn c))).1).NY = 3 := by
    rw [hW]
    rw [dec_NY]
    rfl
  have hdDP : (decodeHeader ByteOrder.little (file_writer ByteOrder.little now
      (sigOf (cubeFn c))).1).DP_SZ = 4 := by
    rw [hW]
    rw [dec_DP_SZ]
    rfl
  have hdo2 : (decodeHeader ByteOrder.little (file_writer ByteOrder.little now
      (sigOf (cubeFn c))).1).Data_offset_2 = 4108 := by
    rw [hW]
    rw [dec_off2, hoff2]
    norm_num
  have hblen : (file_writer ByteOrder.little now (sigOf (cubeFn c))).1.length = 4240 := by
    rw [hW]
    simp only [List.length_append, List.length_replicate, encodeHeader_length, hvbf, hf1len]
  have hsndC1 : (writeFrames ByteOrder.little (framesOf (sigOf (cubeFn c))) 6 0).2
      = none := by
    rw [wf_err ByteOrder.little (framesOf (sigOf (cubeFn c))) 6 0 (by omega) (by norm_num),
      hflen]
    norm_num
  have hread : file_reader ByteOrder.little (file_writer ByteOrder.little now
      (sigOf (cubeFn c))).1 = Except.ok (readResult ByteOrder.little
        (file_writer ByteOrder.little now (sigOf (cubeFn c))).1) := by
    simp only [file_reader]
    rw [if_neg (by rw [hblen]; norm_num),
      if_neg (by rw [hblen, hdo2, hdNX, hdNY, hdDP]; norm_num),
      if_neg (by rw [hdNX, hdNY, hdDP]; norm_num)]
  have hfst : (file_writer ByteOrder.little now (sigOf (cubeFn c))).1
      = (((encodeHeader ByteOrder.little (hdrC1 now) ++ List.replicate 3856 0)
          ++ vbfBytes (sigOf (cubeFn c))) ++ List.replicate 6 0)
        ++ (writeFrames ByteOrder.little (framesOf (sigOf (cubeFn c))) 6 0).1 := by
    rw [hW]
    simp only [List.append_assoc]
  refine ⟨?_, ?_, ?_, ?_⟩
  · rw [hW]
    exact hsndC1
  · rw [hread]
    rfl
  · rw [hread]
    simp only [readOk, readResult]
    rw [hdo2, hdNX, hdNY, hdDP]
    norm_num
    rw [hfst]
    exact readCube_eq c _ _ (by
      simp only [List.length_append, List.length_replicate, encodeHeader_length, hvbf]) rfl
  · rw [hread]
    simp only [readOk, readResult]
    rw [hdDP]
